import Mathlib

/-!
# TPC-H generate-and-write driver (`bolt/tpch/gen/TpchGenerateMain.cpp`)

A shallow embedding of `main` from line 58 (validation of the output directory) to
line 151, together with theorems about its exit status and about the order of the
calls it makes.

The driver talks to collaborators whose code is not part of the translation unit:
`tables`, `toTableName`, `getRowCount` and the eight `genTpch*` functions
(`bolt/tpch/gen/TpchGen.h`), `std::filesystem::create_directories`, the write task
built by `PlanBuilder`/`exec::Task`, and the `BOLT_UNSUPPORTED` macro.  They are the
fields of `Env`.  Calls with side effects thread an abstract world state `σ`, so a
call may succeed or raise depending on everything that happened before it.  The
set-up of lines 43-56 and 65-70 (flags, memory manager, connector, memory pool and
executor) prints nothing and is not part of the embedding.

Every exception a collaborator raises is taken to derive from `std::exception`
(as `BoltException`, `std::filesystem::filesystem_error` and `std::bad_alloc` do);
it is represented by its `what()` text.  An exception that leaves `main` ends the
process through `std::terminate`; that is `Outcome.terminated`, which is not an
exit status returned by `main`.
-/

namespace Tpch

/-- The `Table` enumeration as the `switch` of `main` sees it: the eight enumerators
with a `case` of their own, and every other value of the underlying integer type,
which falls to the `default` label. -/
inductive Table where
  | TBL_PART
  | TBL_SUPPLIER
  | TBL_PARTSUPP
  | TBL_CUSTOMER
  | TBL_ORDERS
  | TBL_LINEITEM
  | TBL_NATION
  | TBL_REGION
  | unlisted (code : Nat)
  deriving DecidableEq, Repr

/-- The eight generator functions `main` can call. -/
inductive Generator where
  | genTpchPart
  | genTpchSupplier
  | genTpchPartSupp
  | genTpchCustomer
  | genTpchOrders
  | genTpchLineItem
  | genTpchNation
  | genTpchRegion
  deriving DecidableEq, Repr

/-- The value of `FLAGS_tpch_generator_scale_factor`.  `main` never computes with it:
it is only handed to `getRowCount` and to the generators. -/
abbrev ScaleFactor := Rat

/-- A `RowVectorPtr` as far as `main` looks at it: `size()` and the identity of the
rows it holds. -/
structure RowVector where
  size : Nat
  content : Nat
  deriving DecidableEq, Repr

/-- The `dwio::common::FileFormat` tag handed to `tableWrite`. -/
inductive FileFormat where
  | PARQUET
  | other (tag : Nat)
  deriving DecidableEq, Repr

/-- One non-null result of `writeTask->next()`: the table writer reports in it how
many rows it persisted. -/
structure TaskResult where
  rows : Nat
  deriving DecidableEq, Repr

/-- What a call produced: a value, or the `what()` of the exception it raised. -/
inductive Result (α : Type) where
  | value (a : α)
  | raised (what : String)
  deriving DecidableEq, Repr

/-- The arguments of one generator call, `gen(pool.get(), rows, offset, sf)`. -/
structure GenCall where
  generator : Generator
  rows : Nat
  offset : Nat
  sf : ScaleFactor
  deriving DecidableEq, Repr

/-- The observable actions of `main`, each call with what it produced. -/
inductive Event where
  | cout (text : String)
  | cerr (text : String)
  | createDirectories (path : String) (result : Result Bool)
  | generate (call : GenCall) (result : Result RowVector)
  | unsupported (what : String)
  | writeTask (taskId : String) (vec : RowVector) (dir : String) (format : FileFormat)
      (result : Result (List TaskResult))
  deriving DecidableEq, Repr

/-- How the process ends: `main` returns a status, or an exception leaves `main`. -/
inductive Outcome where
  | returned (status : Int)
  | terminated (what : String)
  deriving DecidableEq, Repr

/-- The collaborators of `main`. -/
structure Env (σ : Type) where
  /-- The array `tables` of `TpchGen.h`. -/
  tables : List Table
  toTableName : Table → String
  getRowCount : Table → ScaleFactor → Nat
  /-- One of the `genTpch*` functions, called with `(rows, offset, sf)`. -/
  callGenerator : GenCall → σ → Result RowVector × σ
  /-- `std::filesystem::create_directories(path)`. -/
  createDirectories : String → σ → Result Bool × σ
  /-- Lines 128-141: build the `values -> tableWrite` plan fragment, create the task
  named `taskId` and call `next()` until it returns null.  The value is the list of
  the non-null results. -/
  runWriteTask : String → RowVector → String → FileFormat → σ → Result (List TaskResult) × σ
  /-- The `what()` of the exception `BOLT_UNSUPPORTED(message)` raises. -/
  unsupportedWhat : String → String

/-- The run of `main`: how it ended, what it did, and the world it left. -/
structure Run (σ : Type) where
  outcome : Outcome
  trace : List Event
  world : σ

/-- The same run with `events` having happened first. -/
def Run.after {σ : Type} (events : List Event) (r : Run σ) : Run σ :=
  { r with trace := events ++ r.trace }

/-- `std::filesystem::path(dir) / name` followed by `.string()`, on a POSIX system:
an absolute `name` replaces `dir`; otherwise a separator is added when `dir` has a
filename (is non-empty and does not end in a separator), and `name` is appended. -/
def pathAppend (dir name : String) : String :=
  if name.data.head? = some '/' then name
  else if dir.data.getLast? = none ∨ dir.data.getLast? = some '/' then dir ++ name
  else dir ++ "/" ++ name

/-- Lines 80-124, the `switch`: which generator is called and with which arguments,
or the exception of the `default` label. -/
def dispatch {σ : Type} (env : Env σ) (table : Table) (sf : ScaleFactor) : Result GenCall :=
  match table with
  | .TBL_PART =>
    let rows := env.getRowCount .TBL_PART sf
    .value ⟨.genTpchPart, rows, 0, sf⟩
  | .TBL_SUPPLIER =>
    let rows := env.getRowCount .TBL_SUPPLIER sf
    .value ⟨.genTpchSupplier, rows, 0, sf⟩
  | .TBL_PARTSUPP =>
    let rows := env.getRowCount .TBL_PARTSUPP sf
    .value ⟨.genTpchPartSupp, rows, 0, sf⟩
  | .TBL_CUSTOMER =>
    let rows := env.getRowCount .TBL_CUSTOMER sf
    .value ⟨.genTpchCustomer, rows, 0, sf⟩
  | .TBL_ORDERS =>
    let rows := env.getRowCount .TBL_ORDERS sf
    .value ⟨.genTpchOrders, rows, 0, sf⟩
  | .TBL_LINEITEM =>
    let ordersRows := env.getRowCount .TBL_ORDERS sf
    .value ⟨.genTpchLineItem, ordersRows, 0, sf⟩
  | .TBL_NATION =>
    let rows := env.getRowCount .TBL_NATION sf
    .value ⟨.genTpchNation, rows, 0, sf⟩
  | .TBL_REGION =>
    let rows := env.getRowCount .TBL_REGION sf
    .value ⟨.genTpchRegion, rows, 0, sf⟩
  | .unlisted _ => .raised (env.unsupportedWhat "Unsupported TPC-H Table name")

/-- Line 125. -/
def generatedLine (name : String) (vec : RowVector) : String :=
  "Generated " ++ name ++ ": " ++ toString vec.size ++ " rows\n"

/-- Lines 143-144. -/
def failedLine (name what : String) : String :=
  "Failed to generate/write table \x27" ++ name ++ "\x27: " ++ what ++ "\n"

/-- Lines 79-141, the body of the `try` block for one table: the events it produces,
the world it leaves, and the exception that leaves the block, if any. -/
def tryBlock {σ : Type} (env : Env σ) (sf : ScaleFactor) (table : Table)
    (name tableDir : String) (w : σ) : List Event × σ × Option String :=
  match dispatch env table sf with
  | .raised what => ([.unsupported what], w, some what)
  | .value call =>
    match env.callGenerator call w with
    | (.raised what, w1) => ([.generate call (.raised what)], w1, some what)
    | (.value vec, w1) =>
      match env.runWriteTask ("tpch_write_" ++ name) vec tableDir .PARQUET w1 with
      | (.raised what, w2) =>
        ([.generate call (.value vec), .cout (generatedLine name vec),
          .writeTask ("tpch_write_" ++ name) vec tableDir .PARQUET (.raised what)], w2, some what)
      | (.value results, w2) =>
        ([.generate call (.value vec), .cout (generatedLine name vec),
          .writeTask ("tpch_write_" ++ name) vec tableDir .PARQUET (.value results)], w2, none)

/-- Lines 72-150: the loop over the remaining tables, and what follows it. -/
def tableLoop {σ : Type} (env : Env σ) (sf : ScaleFactor) (outputDir : String) :
    List Table → σ → Run σ
  | [], w => { outcome := .returned 0, trace := [.cout "Done.\n"], world := w }
  | table :: rest, w =>
    let name := env.toTableName table
    let tableDir := pathAppend outputDir name
    match env.createDirectories tableDir w with
    | (.raised what, w1) =>
      { outcome := .terminated what,
        trace := [.createDirectories tableDir (.raised what)], world := w1 }
    | (.value created, w1) =>
      match tryBlock env sf table name tableDir w1 with
      | (events, w2, some what) =>
        { outcome := .returned 1,
          trace := .createDirectories tableDir (.value created) :: events
            ++ [.cerr (failedLine name what)],
          world := w2 }
      | (events, w2, none) =>
        (tableLoop env sf outputDir rest w2).after
          (.createDirectories tableDir (.value created) :: events)

/-- Lines 58-151 of `main`, run with the flags `sf` and `outputDir` in world `w`. -/
def main {σ : Type} (env : Env σ) (sf : ScaleFactor) (outputDir : String) (w : σ) : Run σ :=
  if outputDir = "" then
    { outcome := .returned 1,
      trace := [.cerr "-tpch_generator_output_dir must be specified\n"], world := w }
  else
    match env.createDirectories outputDir w with
    | (.raised what, w1) =>
      { outcome := .terminated what,
        trace := [.createDirectories outputDir (.raised what)], world := w1 }
    | (.value created, w1) =>
      (tableLoop env sf outputDir env.tables w1).after
        [.createDirectories outputDir (.value created)]

/-- The destination directory of a table, `tableDir` of line 74. -/
def tableDir {σ : Type} (env : Env σ) (outputDir : String) (table : Table) : String :=
  pathAppend outputDir (env.toTableName table)

/-- The name of the write task of a table, line 134. -/
def taskIdOf {σ : Type} (env : Env σ) (table : Table) : String :=
  "tpch_write_" ++ env.toTableName table

/-! ## Reading a trace -/

/-- A `create_directories` call that raised. -/
def Event.dirFailed : Event → Bool
  | .createDirectories _ (.raised _) => true
  | _ => false

/-- An exception raised inside the `try` block: by a generator, by the `default`
label of the `switch`, or by the write task. -/
def Event.raisedInTry : Event → Bool
  | .generate _ (.raised _) => true
  | .unsupported _ => true
  | .writeTask _ _ _ _ (.raised _) => true
  | _ => false

/-- The arguments of a generator call that returned. -/
def Event.completedGeneration : Event → Option GenCall
  | .generate call (.value _) => some call
  | _ => none

/-- The destination of a write task that ran to its end. -/
def Event.completedWrite : Event → Option String
  | .writeTask _ _ dir _ (.value _) => some dir
  | _ => none

/-- The path of a `create_directories` call that returned. -/
def Event.createdDir : Event → Option String
  | .createDirectories path (.value _) => some path
  | _ => none

/-- The arguments of a generator call, whatever it produced. -/
def Event.generatorCall : Event → Option GenCall
  | .generate call _ => some call
  | _ => none

/-- The destination of a write task, whatever it produced. -/
def Event.writeDir : Event → Option String
  | .writeTask _ _ dir _ _ => some dir
  | _ => none

/-- A call to a collaborator: `create_directories`, a generator or the write task. -/
def Event.isCall : Event → Bool
  | .createDirectories _ _ => true
  | .generate _ _ => true
  | .writeTask _ _ _ _ _ => true
  | _ => false

/-- A generator call or a write task, without what it produced. -/
inductive Invocation where
  | generate (call : Result GenCall)
  | write (taskId : String) (dir : String) (format : FileFormat)
  deriving DecidableEq, Repr

/-- The generator call or write task an event records. -/
def Event.invocation : Event → Option Invocation
  | .generate call _ => some (.generate (.value call))
  | .writeTask taskId _ dir format _ => some (.write taskId dir format)
  | _ => none

/-- The generator calls and write tasks of a trace, in order. -/
def invocations (trace : List Event) : List Invocation :=
  trace.filterMap Event.invocation

/-- All generator calls, in order. -/
def generatorCalls (trace : List Event) : List GenCall :=
  trace.filterMap Event.generatorCall

/-- The destinations of all write tasks, in order. -/
def writeDirs (trace : List Event) : List String :=
  trace.filterMap Event.writeDir

/-- The generator calls that returned, in order. -/
def generationsCompleted (trace : List Event) : List GenCall :=
  trace.filterMap Event.completedGeneration

/-- The destinations of the write tasks that ran to their end, in order. -/
def writesCompleted (trace : List Event) : List String :=
  trace.filterMap Event.completedWrite

/-- The directories created, in order. -/
def dirsCreated (trace : List Event) : List String :=
  trace.filterMap Event.createdDir

/-- The value a call produced, if it did not raise. -/
def Result.toOption {α : Type} : Result α → Option α
  | .value a => some a
  | .raised _ => none

/-- The generator calls the `switch` selects for the tables `ts`, in order; a table
of the `default` label has none. -/
def selectedCalls {σ : Type} (env : Env σ) (sf : ScaleFactor) (ts : List Table) :
    List GenCall :=
  ts.filterMap fun t => (dispatch env t sf).toOption

/-- The tables whose `try` block the run entered: as many of the first tables of
`tables` as subdirectories were created after the root directory. -/
def tablesEntered {σ : Type} (env : Env σ) (trace : List Event) : List Table :=
  env.tables.take ((dirsCreated trace).length - 1)

/-- Generation and write completed for every table of the list: the generator calls
that returned are, one for one and in order, the calls the `switch` selects for the
tables, and the write tasks that ran to their end are those into the directories
of the tables. -/
def AllTablesCompleted {σ : Type} (env : Env σ) (sf : ScaleFactor) (outputDir : String)
    (trace : List Event) : Prop :=
  (generationsCompleted trace).map Result.value = env.tables.map (fun t => dispatch env t sf) ∧
  writesCompleted trace = env.tables.map (tableDir env outputDir)

instance {σ : Type} (env : Env σ) (sf : ScaleFactor) (outputDir : String) (trace : List Event) :
    Decidable (AllTablesCompleted env sf outputDir trace) := by
  unfold AllTablesCompleted
  exact inferInstance

/-- The generator call and the write task of each table, table after table. -/
def expectedInvocations {σ : Type} (env : Env σ) (sf : ScaleFactor) (outputDir : String)
    (ts : List Table) : List Invocation :=
  ts.flatMap fun t =>
    [.generate (dispatch env t sf), .write (taskIdOf env t) (tableDir env outputDir t) .PARQUET]

/-- What lies around a generator call or a write task `e` of a trace
`before ++ e :: after`.  A generator call selected for a table `t` comes right after
the creation of `tableDir t`, and when it returns a batch, the progress line and the
write task of that batch into `tableDir t`, as Parquet, come right after it.  A write
task comes right after the creation of its destination, the generator call that
returned the batch it writes, and the progress line. -/
def OwnDirectoryFirst {σ : Type} (env : Env σ) (sf : ScaleFactor) (outputDir : String)
    (before : List Event) (e : Event) (after : List Event) : Prop :=
  (∀ call res, e = .generate call res →
    ∃ t b0 created, t ∈ env.tables ∧ dispatch env t sf = .value call ∧
      before = b0 ++ [.createDirectories (tableDir env outputDir t) (.value created)] ∧
      ∀ vec, res = .value vec → ∃ wres rest,
        after = .cout (generatedLine (env.toTableName t) vec) ::
          .writeTask (taskIdOf env t) vec (tableDir env outputDir t) .PARQUET wres :: rest) ∧
  (∀ taskId vec d format res, e = .writeTask taskId vec d format res →
    ∃ t b0 created call, t ∈ env.tables ∧ dispatch env t sf = .value call ∧
      taskId = taskIdOf env t ∧ d = tableDir env outputDir t ∧ format = .PARQUET ∧
      before = b0 ++ [.createDirectories d (.value created), .generate call (.value vec),
        .cout (generatedLine (env.toTableName t) vec)])

/-- The shapes a run of the table loop can take, without the world: the events of
one iteration for each table processed to its end, followed by `Done.` or by the
events of the iteration that ended the run. -/
inductive LoopRun {σ : Type} (env : Env σ) (sf : ScaleFactor) (outputDir : String) :
    List Table → Outcome → List Event → Prop where
  | done : LoopRun env sf outputDir [] (.returned 0) [.cout "Done.\n"]
  | dirFailed (table : Table) (rest : List Table) (what : String) :
      LoopRun env sf outputDir (table :: rest) (.terminated what)
        [.createDirectories (tableDir env outputDir table) (.raised what)]
  | unsupported (table : Table) (rest : List Table) (created : Bool) (what : String) :
      dispatch env table sf = .raised what →
      LoopRun env sf outputDir (table :: rest) (.returned 1)
        [.createDirectories (tableDir env outputDir table) (.value created),
         .unsupported what,
         .cerr (failedLine (env.toTableName table) what)]
  | generatorRaised (table : Table) (rest : List Table) (created : Bool) (call : GenCall)
      (what : String) :
      dispatch env table sf = .value call →
      LoopRun env sf outputDir (table :: rest) (.returned 1)
        [.createDirectories (tableDir env outputDir table) (.value created),
         .generate call (.raised what),
         .cerr (failedLine (env.toTableName table) what)]
  | writeRaised (table : Table) (rest : List Table) (created : Bool) (call : GenCall)
      (vec : RowVector) (what : String) :
      dispatch env table sf = .value call →
      LoopRun env sf outputDir (table :: rest) (.returned 1)
        [.createDirectories (tableDir env outputDir table) (.value created),
         .generate call (.value vec),
         .cout (generatedLine (env.toTableName table) vec),
         .writeTask (taskIdOf env table) vec (tableDir env outputDir table) .PARQUET (.raised what),
         .cerr (failedLine (env.toTableName table) what)]
  | next (table : Table) (rest : List Table) (created : Bool) (call : GenCall)
      (vec : RowVector) (results : List TaskResult) (outcome : Outcome) (trace : List Event) :
      dispatch env table sf = .value call →
      LoopRun env sf outputDir rest outcome trace →
      LoopRun env sf outputDir (table :: rest) outcome
        (.createDirectories (tableDir env outputDir table) (.value created) ::
         .generate call (.value vec) ::
         .cout (generatedLine (env.toTableName table) vec) ::
         .writeTask (taskIdOf env table) vec (tableDir env outputDir table) .PARQUET
           (.value results) :: trace)

/-! ## A concrete environment -/

/-- The `tables` array in the order of the `case` labels of `main`. -/
def allTables : List Table :=
  [.TBL_PART, .TBL_SUPPLIER, .TBL_PARTSUPP, .TBL_CUSTOMER, .TBL_ORDERS, .TBL_LINEITEM,
   .TBL_NATION, .TBL_REGION]

/-- Lower-case table names. -/
def tableName : Table → String
  | .TBL_PART => "part"
  | .TBL_SUPPLIER => "supplier"
  | .TBL_PARTSUPP => "partsupp"
  | .TBL_CUSTOMER => "customer"
  | .TBL_ORDERS => "orders"
  | .TBL_LINEITEM => "lineitem"
  | .TBL_NATION => "nation"
  | .TBL_REGION => "region"
  | .unlisted _ => ""

/-- Small row counts, enough to tell the tables apart. -/
def smallRowCount : Table → ScaleFactor → Nat
  | .TBL_PART, _ => 20
  | .TBL_SUPPLIER, _ => 10
  | .TBL_PARTSUPP, _ => 80
  | .TBL_CUSTOMER, _ => 15
  | .TBL_ORDERS, _ => 150
  | .TBL_LINEITEM, _ => 600
  | .TBL_NATION, _ => 25
  | .TBL_REGION, _ => 5
  | .unlisted _, _ => 0

/-- A world that counts the write tasks started so far.  Creating a directory
succeeds except at the path `badDir`; every generator returns a batch of the rows
asked for; write task number `failAt` (counted from 0) raises, and every other one
reports `reported vec` rows persisted. -/
def countingEnv (tables : List Table) (badDir : Option String) (failAt : Option Nat)
    (reported : RowVector → Nat) : Env Nat where
  tables := tables
  toTableName := tableName
  getRowCount := smallRowCount
  callGenerator := fun call w => (.value ⟨call.rows, w⟩, w)
  createDirectories := fun path w =>
    if badDir = some path then (.raised ("filesystem error: cannot create directories: " ++ path), w)
    else (.value true, w)
  runWriteTask := fun _ vec _ _ w =>
    if failAt = some w then (.raised "No space left on device", w + 1)
    else (.value [⟨reported vec⟩], w + 1)
  unsupportedWhat := fun message => message

/-- Scale factor 1 into `out`: every call succeeds and every write reports the rows
of its batch. -/
def fullEnv : Env Nat :=
  countingEnv allTables none none (fun vec => vec.size)

/-- The third write task (partsupp) raises. -/
def diskFullEnv : Env Nat :=
  countingEnv allTables none (some 2) (fun vec => vec.size)

/-- The root directory `/proc/out` cannot be created. -/
def noRootEnv : Env Nat :=
  countingEnv allTables (some "/proc/out") none (fun vec => vec.size)

/-- The subdirectory `out/supplier` cannot be created (a file of that name exists). -/
def noSubdirEnv : Env Nat :=
  countingEnv allTables (some "out/supplier") none (fun vec => vec.size)

/-! ## The shape of every run -/

/-- The four ways through the `try` block. -/
theorem tryBlock_cases {σ : Type} (env : Env σ) (sf : ScaleFactor) (t : Table)
    (name dir : String) (w : σ) :
    (∃ what, dispatch env t sf = .raised what ∧
      tryBlock env sf t name dir w = ([.unsupported what], w, some what)) ∨
    (∃ call what w1, dispatch env t sf = .value call ∧
      tryBlock env sf t name dir w = ([.generate call (.raised what)], w1, some what)) ∨
    (∃ call vec what w2, dispatch env t sf = .value call ∧
      tryBlock env sf t name dir w =
        ([.generate call (.value vec), .cout (generatedLine name vec),
          .writeTask ("tpch_write_" ++ name) vec dir .PARQUET (.raised what)], w2, some what)) ∨
    (∃ call vec results w2, dispatch env t sf = .value call ∧
      tryBlock env sf t name dir w =
        ([.generate call (.value vec), .cout (generatedLine name vec),
          .writeTask ("tpch_write_" ++ name) vec dir .PARQUET (.value results)], w2, none)) := by
  unfold tryBlock
  cases hd : dispatch env t sf with
  | raised what => exact Or.inl ⟨what, rfl, rfl⟩
  | value call =>
    simp only
    rcases hg : env.callGenerator call w with ⟨rg, w1⟩
    cases rg with
    | raised what => exact Or.inr (Or.inl ⟨call, what, w1, rfl, rfl⟩)
    | value vec =>
      simp only
      rcases hw : env.runWriteTask ("tpch_write_" ++ name) vec dir .PARQUET w1 with ⟨rw, w2⟩
      cases rw with
      | raised what => exact Or.inr (Or.inr (Or.inl ⟨call, vec, what, w2, rfl, rfl⟩))
      | value results => exact Or.inr (Or.inr (Or.inr ⟨call, vec, results, w2, rfl, rfl⟩))

/-- Every run of `tableLoop` has one of the shapes of `LoopRun`. -/
theorem tableLoop_run {σ : Type} (env : Env σ) (sf : ScaleFactor) (outputDir : String)
    (ts : List Table) (w : σ) :
    LoopRun env sf outputDir ts (tableLoop env sf outputDir ts w).outcome
      (tableLoop env sf outputDir ts w).trace := by
  induction ts generalizing w with
  | nil => exact LoopRun.done
  | cons t rest ih =>
    unfold tableLoop
    simp only
    rcases hmk : env.createDirectories (pathAppend outputDir (env.toTableName t)) w with ⟨rd, w1⟩
    cases rd with
    | raised what => exact LoopRun.dirFailed t rest what
    | value created =>
      simp only
      rcases tryBlock_cases env sf t (env.toTableName t)
          (pathAppend outputDir (env.toTableName t)) w1 with
        ⟨what, hd, h⟩ | ⟨call, what, w2, hd, h⟩ | ⟨call, vec, what, w2, hd, h⟩ |
        ⟨call, vec, results, w2, hd, h⟩
      · rw [h]; exact LoopRun.unsupported t rest created what hd
      · rw [h]; exact LoopRun.generatorRaised t rest created call what hd
      · rw [h]; exact LoopRun.writeRaised t rest created call vec what hd
      · rw [h]; exact LoopRun.next t rest created call vec results _ _ hd (ih w2)

/-- The runs of `main`: an empty output directory, a root directory that cannot be
created, or the root directory followed by a run of the loop. -/
theorem main_run {σ : Type} (env : Env σ) (sf : ScaleFactor) (outputDir : String) (w : σ) :
    (outputDir = "" ∧ (main env sf outputDir w).outcome = .returned 1 ∧
      (main env sf outputDir w).trace = [.cerr "-tpch_generator_output_dir must be specified\n"]) ∨
    (outputDir ≠ "" ∧ ∃ what, (main env sf outputDir w).outcome = .terminated what ∧
      (main env sf outputDir w).trace = [.createDirectories outputDir (.raised what)]) ∨
    (outputDir ≠ "" ∧ ∃ created tr,
      LoopRun env sf outputDir env.tables (main env sf outputDir w).outcome tr ∧
      (main env sf outputDir w).trace = .createDirectories outputDir (.value created) :: tr) := by
  unfold main
  by_cases hdir : outputDir = ""
  · simp [hdir]
  · simp only [hdir, if_false]
    rcases hmk : env.createDirectories outputDir w with ⟨rd, w1⟩
    cases rd with
    | raised what => exact Or.inr (Or.inl ⟨fun h => hdir h, what, rfl, rfl⟩)
    | value created =>
      exact Or.inr (Or.inr ⟨fun h => hdir h, created, _,
        tableLoop_run env sf outputDir env.tables w1, rfl⟩)

/-! ## Exit status -/

/-- A run of the loop that returns 0 generated and wrote every table. -/
theorem LoopRun.completed {σ : Type} {env : Env σ} {sf : ScaleFactor} {dir : String}
    {ts : List Table} {o : Outcome} {tr : List Event} (h : LoopRun env sf dir ts o tr)
    (ho : o = .returned 0) :
    (generationsCompleted tr).map Result.value = ts.map (fun t => dispatch env t sf) ∧
    writesCompleted tr = ts.map (tableDir env dir) := by
  induction h with
  | done => simp [generationsCompleted, writesCompleted, Event.completedGeneration,
      Event.completedWrite]
  | dirFailed => simp at ho
  | unsupported => simp at ho
  | generatorRaised => simp at ho
  | writeRaised => simp at ho
  | next t rest created call vec results o tr hd _ ih =>
    obtain ⟨ih1, ih2⟩ := ih ho
    simp only [generationsCompleted, writesCompleted] at ih1 ih2
    simp [generationsCompleted, writesCompleted, Event.completedGeneration,
      Event.completedWrite, hd, ih1, ih2]

/-- A run of the loop that does not return 0 completed fewer writes than there are
tables. -/
theorem LoopRun.incomplete {σ : Type} {env : Env σ} {sf : ScaleFactor} {dir : String}
    {ts : List Table} {o : Outcome} {tr : List Event} (h : LoopRun env sf dir ts o tr)
    (ho : o ≠ .returned 0) : (writesCompleted tr).length < ts.length := by
  induction h with
  | done => simp at ho
  | dirFailed => simp [writesCompleted, Event.completedWrite]
  | unsupported => simp [writesCompleted, Event.completedWrite]
  | generatorRaised => simp [writesCompleted, Event.completedWrite]
  | writeRaised => simp [writesCompleted, Event.completedWrite]
  | next t rest created call vec results o tr hd _ ih =>
    have := ih ho
    simp only [writesCompleted] at this
    simp [writesCompleted, Event.completedWrite, this]

/-- When no directory creation raises, the loop returns 0 or 1. -/
theorem LoopRun.status {σ : Type} {env : Env σ} {sf : ScaleFactor} {dir : String}
    {ts : List Table} {o : Outcome} {tr : List Event} (h : LoopRun env sf dir ts o tr)
    (hmk : ∀ e ∈ tr, e.dirFailed = false) : o = .returned 0 ∨ o = .returned 1 := by
  induction h with
  | done => exact Or.inl rfl
  | dirFailed => simp [Event.dirFailed] at hmk
  | unsupported => exact Or.inr rfl
  | generatorRaised => exact Or.inr rfl
  | writeRaised => exact Or.inr rfl
  | next t rest created call vec results o tr hd _ ih =>
    exact ih (fun e he => hmk e (by simp [he]))

/-- C3: with an empty output-directory argument, for every scale factor, `main`
returns 1; all it does is print the message to standard error: it creates no
directory, calls no generator and runs no write task. -/
theorem main_empty_output_dir {σ : Type} (env : Env σ) (sf : ScaleFactor) (w : σ) :
    (main env sf "" w).outcome = .returned 1 ∧
    (main env sf "" w).trace = [.cerr "-tpch_generator_output_dir must be specified\n"] ∧
    (main env sf "" w).trace.filter Event.isCall = [] ∧
    (main env sf "" w).world = w := by
  simp [main, Event.isCall]

/-- C1: for every scale factor and every non-empty output directory, when no
directory creation raises, `main` returns 0 exactly when generation and the write
task completed for every table of `tables`, and returns 1 in every other case. -/
theorem main_exit_status {σ : Type} (env : Env σ) (sf : ScaleFactor) (outputDir : String)
    (w : σ) (hdir : outputDir ≠ "")
    (hmk : ∀ e ∈ (main env sf outputDir w).trace, e.dirFailed = false) :
    ((main env sf outputDir w).outcome = .returned 0 ↔
      AllTablesCompleted env sf outputDir (main env sf outputDir w).trace) ∧
    (¬ AllTablesCompleted env sf outputDir (main env sf outputDir w).trace →
      (main env sf outputDir w).outcome = .returned 1) := by
  rcases main_run env sf outputDir w with ⟨h, _⟩ | ⟨_, what, _, htr⟩ | ⟨_, created, tr, hrun, htr⟩
  · exact absurd h hdir
  · rw [htr] at hmk
    simp [Event.dirFailed] at hmk
  · rw [htr] at hmk ⊢
    have hmk2 : ∀ e ∈ tr, e.dirFailed = false := fun e he => hmk e (by simp [he])
    have hall : (main env sf outputDir w).outcome = .returned 0 ↔
        AllTablesCompleted env sf outputDir (.createDirectories outputDir (.value created) :: tr) := by
      constructor
      · intro ho
        have := hrun.completed ho
        simpa [AllTablesCompleted, generationsCompleted, writesCompleted,
          Event.completedGeneration, Event.completedWrite] using this
      · intro hc
        by_contra ho
        have hlt := hrun.incomplete ho
        have hlen := congrArg List.length hc.2
        simp [writesCompleted, Event.completedWrite] at hlen hlt
        omega
    refine ⟨hall, fun hn => ?_⟩
    rcases hrun.status hmk2 with h0 | h1
    · exact absurd (hall.mp h0) hn
    · exact h1

/-! ## Stopping at the first failure -/

/-- A run of the loop in which something raises inside the `try` block ends at the
table where it happens. -/
theorem LoopRun.stops {σ : Type} {env : Env σ} {sf : ScaleFactor} {dir : String}
    {ts : List Table} {o : Outcome} {tr : List Event} (h : LoopRun env sf dir ts o tr)
    (hr : tr.any Event.raisedInTry = true) :
    o = .returned 1 ∧ ∃ pre t post, ts = pre ++ t :: post ∧
      dirsCreated tr = (pre ++ [t]).map (tableDir env dir) ∧
      (generatorCalls tr).map Result.value <+: (pre ++ [t]).map (fun t => dispatch env t sf) ∧
      writeDirs tr <+: (pre ++ [t]).map (tableDir env dir) ∧
      writesCompleted tr = pre.map (tableDir env dir) := by
  induction h with
  | done => simp [Event.raisedInTry] at hr
  | dirFailed => simp [Event.raisedInTry] at hr
  | unsupported t rest created what hd =>
    exact ⟨rfl, [], t, rest, rfl, by
      simp [dirsCreated, generatorCalls, writeDirs, writesCompleted, Event.createdDir,
        Event.generatorCall, Event.writeDir, Event.completedWrite]⟩
  | generatorRaised t rest created call what hd =>
    exact ⟨rfl, [], t, rest, rfl, by
      simp [dirsCreated, generatorCalls, writeDirs, writesCompleted, Event.createdDir,
        Event.generatorCall, Event.writeDir, Event.completedWrite, hd]⟩
  | writeRaised t rest created call vec what hd =>
    exact ⟨rfl, [], t, rest, rfl, by
      simp [dirsCreated, generatorCalls, writeDirs, writesCompleted, Event.createdDir,
        Event.generatorCall, Event.writeDir, Event.completedWrite, hd]⟩
  | next t rest created call vec results o tr hd _ ih =>
    have hr2 : tr.any Event.raisedInTry = true := by
      simpa [Event.raisedInTry] using hr
    obtain ⟨ho, pre, t1, post, hts, h1, h2, h3, h4⟩ := ih hr2
    refine ⟨ho, t :: pre, t1, post, by simp [hts], ?_, ?_, ?_, ?_⟩
    · simp only [dirsCreated] at h1
      simp [dirsCreated, Event.createdDir, h1]
    · simp only [generatorCalls] at h2
      simpa [generatorCalls, Event.generatorCall, hd, List.cons_prefix_cons] using h2
    · simp only [writeDirs] at h3
      simpa [writeDirs, Event.writeDir, List.cons_prefix_cons] using h3
    · simp only [writesCompleted] at h4
      simp [writesCompleted, Event.completedWrite, h4]

/-- C2: in every run in which a generator, the `default` label of the `switch` or a
write task raises, `main` returns 1 and the run stops at the first table where that
happens: with `tables = pre ++ t :: post`, every table of `pre` was written to its
end, the directories created are the root and those of `pre` and `t`, and the
generator calls and write tasks are among those of `pre` and `t`; nothing is
created, generated or written for `post`. -/
theorem main_stops_at_first_failure {σ : Type} (env : Env σ) (sf : ScaleFactor)
    (outputDir : String) (w : σ)
    (hr : (main env sf outputDir w).trace.any Event.raisedInTry = true) :
    (main env sf outputDir w).outcome = .returned 1 ∧
    ∃ pre t post, env.tables = pre ++ t :: post ∧
      dirsCreated (main env sf outputDir w).trace =
        outputDir :: (pre ++ [t]).map (tableDir env outputDir) ∧
      (generatorCalls (main env sf outputDir w).trace).map Result.value <+:
        (pre ++ [t]).map (fun t => dispatch env t sf) ∧
      writeDirs (main env sf outputDir w).trace <+: (pre ++ [t]).map (tableDir env outputDir) ∧
      writesCompleted (main env sf outputDir w).trace = pre.map (tableDir env outputDir) := by
  rcases main_run env sf outputDir w with ⟨_, _, htr⟩ | ⟨_, what, _, htr⟩ |
    ⟨_, created, tr, hrun, htr⟩
  · rw [htr] at hr
    simp [Event.raisedInTry] at hr
  · rw [htr] at hr
    simp [Event.raisedInTry] at hr
  · rw [htr] at hr ⊢
    have hr2 : tr.any Event.raisedInTry = true := by
      simpa [Event.raisedInTry] using hr
    obtain ⟨ho, pre, t, post, hts, h1, h2, h3, h4⟩ := hrun.stops hr2
    refine ⟨ho, pre, t, post, hts, ?_, ?_, ?_, ?_⟩
    · simp only [dirsCreated] at h1
      simp [dirsCreated, Event.createdDir, h1]
    · simp only [generatorCalls] at h2
      simpa [generatorCalls, Event.generatorCall] using h2
    · simp only [writeDirs] at h3
      simpa [writeDirs, Event.writeDir] using h3
    · simp only [writesCompleted] at h4
      simp [writesCompleted, Event.completedWrite, h4]

/-! ## The dispatch -/

/-- The generator calls of a run of the loop are those selected for its first
tables. -/
theorem LoopRun.calls_prefix {σ : Type} {env : Env σ} {sf : ScaleFactor} {dir : String}
    {ts : List Table} {o : Outcome} {tr : List Event} (h : LoopRun env sf dir ts o tr) :
    (generatorCalls tr).map Result.value <+: ts.map (fun t => dispatch env t sf) := by
  induction h with
  | done => simp [generatorCalls, Event.generatorCall]
  | dirFailed => simp [generatorCalls, Event.generatorCall]
  | unsupported => simp [generatorCalls, Event.generatorCall]
  | generatorRaised t rest created call what hd =>
    simp [generatorCalls, Event.generatorCall, hd, List.cons_prefix_cons]
  | writeRaised t rest created call vec what hd =>
    simp [generatorCalls, Event.generatorCall, hd, List.cons_prefix_cons]
  | next t rest created call vec results o tr hd _ ih =>
    simp only [generatorCalls] at ih
    simpa [generatorCalls, Event.generatorCall, hd, List.cons_prefix_cons] using ih

/-- The generator calls of a run of the loop are exactly the calls selected for the
tables whose directory was created. -/
theorem LoopRun.calls_eq {σ : Type} {env : Env σ} {sf : ScaleFactor} {dir : String}
    {ts : List Table} {o : Outcome} {tr : List Event} (h : LoopRun env sf dir ts o tr) :
    generatorCalls tr = selectedCalls env sf (ts.take (dirsCreated tr).length) := by
  induction h with
  | done => simp [generatorCalls, dirsCreated, selectedCalls, Event.generatorCall,
      Event.createdDir]
  | dirFailed => simp [generatorCalls, dirsCreated, selectedCalls, Event.generatorCall,
      Event.createdDir]
  | unsupported t rest created what hd =>
    simp [generatorCalls, dirsCreated, selectedCalls, Event.generatorCall,
      Event.createdDir, hd, Result.toOption]
  | generatorRaised t rest created call what hd =>
    simp [generatorCalls, dirsCreated, selectedCalls, Event.generatorCall,
      Event.createdDir, hd, Result.toOption]
  | writeRaised t rest created call vec what hd =>
    simp [generatorCalls, dirsCreated, selectedCalls, Event.generatorCall,
      Event.createdDir, hd, Result.toOption]
  | next t rest created call vec results o tr hd _ ih =>
    simp only [generatorCalls, dirsCreated, selectedCalls] at ih
    simp [generatorCalls, dirsCreated, selectedCalls, Event.generatorCall,
      Event.createdDir, hd, Result.toOption, ih]

/-- C5: for every scale factor, the `switch` selects for each table other than
lineitem its own generator with `getRowCount` of that table, offset 0 and the scale
factor, and for lineitem `genTpchLineItem` with `getRowCount(TBL_ORDERS, sf)`, offset
0 and the scale factor; and `main` makes these calls: the generator calls of a run
are exactly, in order, the calls selected for the tables whose `try` block the run
entered, one call for each such table with a `case` of its own. -/
theorem dispatch_calls {σ : Type} (env : Env σ) (sf : ScaleFactor) (outputDir : String)
    (w : σ) :
    dispatch env .TBL_PART sf = .value ⟨.genTpchPart, env.getRowCount .TBL_PART sf, 0, sf⟩ ∧
    dispatch env .TBL_SUPPLIER sf =
      .value ⟨.genTpchSupplier, env.getRowCount .TBL_SUPPLIER sf, 0, sf⟩ ∧
    dispatch env .TBL_PARTSUPP sf =
      .value ⟨.genTpchPartSupp, env.getRowCount .TBL_PARTSUPP sf, 0, sf⟩ ∧
    dispatch env .TBL_CUSTOMER sf =
      .value ⟨.genTpchCustomer, env.getRowCount .TBL_CUSTOMER sf, 0, sf⟩ ∧
    dispatch env .TBL_ORDERS sf = .value ⟨.genTpchOrders, env.getRowCount .TBL_ORDERS sf, 0, sf⟩ ∧
    dispatch env .TBL_LINEITEM sf =
      .value ⟨.genTpchLineItem, env.getRowCount .TBL_ORDERS sf, 0, sf⟩ ∧
    dispatch env .TBL_NATION sf = .value ⟨.genTpchNation, env.getRowCount .TBL_NATION sf, 0, sf⟩ ∧
    dispatch env .TBL_REGION sf = .value ⟨.genTpchRegion, env.getRowCount .TBL_REGION sf, 0, sf⟩ ∧
    (generatorCalls (main env sf outputDir w).trace).map Result.value <+:
      env.tables.map (fun t => dispatch env t sf) ∧
    generatorCalls (main env sf outputDir w).trace =
      selectedCalls env sf (tablesEntered env (main env sf outputDir w).trace) := by
  refine ⟨rfl, rfl, rfl, rfl, rfl, rfl, rfl, rfl, ?_, ?_⟩
  · rcases main_run env sf outputDir w with ⟨_, _, htr⟩ | ⟨_, what, _, htr⟩ |
      ⟨_, created, tr, hrun, htr⟩
    · simp [htr, generatorCalls, Event.generatorCall]
    · simp [htr, generatorCalls, Event.generatorCall]
    · have := hrun.calls_prefix
      simp only [generatorCalls] at this
      simpa [htr, generatorCalls, Event.generatorCall] using this
  · rcases main_run env sf outputDir w with ⟨_, _, htr⟩ | ⟨_, what, _, htr⟩ |
      ⟨_, created, tr, hrun, htr⟩
    · simp [htr, generatorCalls, Event.generatorCall, tablesEntered, dirsCreated,
        Event.createdDir, selectedCalls]
    · simp [htr, generatorCalls, Event.generatorCall, tablesEntered, dirsCreated,
        Event.createdDir, selectedCalls]
    · have := hrun.calls_eq
      simp only [generatorCalls, dirsCreated] at this
      simp [htr, generatorCalls, Event.generatorCall, tablesEntered, dirsCreated,
        Event.createdDir, this]

/-! ## The order of the calls -/

/-- A run of the loop in which nothing raises returns 0 after one generator call and
one write task per table. -/
theorem LoopRun.invocations_eq {σ : Type} {env : Env σ} {sf : ScaleFactor} {dir : String}
    {ts : List Table} {o : Outcome} {tr : List Event} (h : LoopRun env sf dir ts o tr)
    (hok : tr.any (fun e => e.dirFailed || e.raisedInTry) = false) :
    o = .returned 0 ∧ invocations tr = expectedInvocations env sf dir ts := by
  induction h with
  | done => simp [invocations, expectedInvocations, Event.invocation]
  | dirFailed => simp [Event.dirFailed] at hok
  | unsupported => simp [Event.dirFailed, Event.raisedInTry] at hok
  | generatorRaised => simp [Event.dirFailed, Event.raisedInTry] at hok
  | writeRaised => simp [Event.dirFailed, Event.raisedInTry] at hok
  | next t rest created call vec results o tr hd _ ih =>
    have hok2 : tr.any (fun e => e.dirFailed || e.raisedInTry) = false := by
      simpa [Event.dirFailed, Event.raisedInTry] using hok
    obtain ⟨ho, hi⟩ := ih hok2
    simp only [invocations, expectedInvocations] at hi
    refine ⟨ho, ?_⟩
    simp [invocations, expectedInvocations, Event.invocation, hd, hi]

/-- C7: on a run in which nothing fails (the output directory is given, and no
directory creation, generator call or write task raises), `main` returns 0 and the
sequence of generator calls and write tasks is, for `tables = [t1, ..., tn]`,
generate(t1), write(t1), ..., generate(tn), write(tn): one generation and one write
per entry of the list, the write of a table before the generation of the next. -/
theorem main_invocation_order {σ : Type} (env : Env σ) (sf : ScaleFactor)
    (outputDir : String) (w : σ) (hdir : outputDir ≠ "")
    (hok : (main env sf outputDir w).trace.any (fun e => e.dirFailed || e.raisedInTry) = false) :
    (main env sf outputDir w).outcome = .returned 0 ∧
    invocations (main env sf outputDir w).trace =
      expectedInvocations env sf outputDir env.tables := by
  rcases main_run env sf outputDir w with ⟨h, _⟩ | ⟨_, what, _, htr⟩ |
    ⟨_, created, tr, hrun, htr⟩
  · exact absurd h hdir
  · rw [htr] at hok
    simp [Event.dirFailed] at hok
  · rw [htr] at hok ⊢
    have hok2 : tr.any (fun e => e.dirFailed || e.raisedInTry) = false := by
      simpa [Event.dirFailed, Event.raisedInTry] using hok
    obtain ⟨ho, hi⟩ := hrun.invocations_eq hok2
    simp only [invocations] at hi
    refine ⟨ho, ?_⟩
    simp [invocations, Event.invocation, hi]

/-! ## What surrounds a call -/

/-- A run of the loop starts with `Done.` or with the creation of a directory. -/
theorem LoopRun.head {σ : Type} {env : Env σ} {sf : ScaleFactor} {dir : String}
    {ts : List Table} {o : Outcome} {tr : List Event} (h : LoopRun env sf dir ts o tr) :
    (tr = [.cout "Done.\n"] ∧ o = .returned 0) ∨
    ∃ t r rest, t ∈ ts ∧ tr = .createDirectories (tableDir env dir t) r :: rest := by
  cases h with
  | done => exact Or.inl ⟨rfl, rfl⟩
  | dirFailed t rest what => exact Or.inr ⟨t, _, _, by simp, rfl⟩
  | unsupported t rest created what hd => exact Or.inr ⟨t, _, _, by simp, rfl⟩
  | generatorRaised t rest created call what hd => exact Or.inr ⟨t, _, _, by simp, rfl⟩
  | writeRaised t rest created call vec what hd => exact Or.inr ⟨t, _, _, by simp, rfl⟩
  | next t rest created call vec results o tr hd _ => exact Or.inr ⟨t, _, _, by simp, rfl⟩

/-- Around a write task in a run of the loop: the three events before it, and what
follows it. -/
theorem LoopRun.write_context {σ : Type} {env : Env σ} {sf : ScaleFactor} {dir : String}
    {ts : List Table} {o : Outcome} {tr : List Event} (h : LoopRun env sf dir ts o tr)
    (before : List Event) (taskId : String) (vec : RowVector) (d : String) (format : FileFormat)
    (res : Result (List TaskResult)) (after : List Event)
    (htr : tr = before ++ .writeTask taskId vec d format res :: after) :
    ∃ t b0 created call, t ∈ ts ∧ dispatch env t sf = .value call ∧
      taskId = taskIdOf env t ∧ d = tableDir env dir t ∧ format = .PARQUET ∧
      before = b0 ++ [.createDirectories (tableDir env dir t) (.value created),
        .generate call (.value vec), .cout (generatedLine (env.toTableName t) vec)] ∧
      ((∃ results, res = .value results ∧
          ((after = [.cout "Done.\n"] ∧ o = .returned 0) ∨
            ∃ t2 r rest, t2 ∈ ts ∧ after = .createDirectories (tableDir env dir t2) r :: rest)) ∨
        (∃ what, res = .raised what ∧
          after = [.cerr (failedLine (env.toTableName t) what)] ∧ o = .returned 1)) := by
  induction h generalizing before with
  | done =>
    rcases before with _ | ⟨b1, _ | ⟨b2, before⟩⟩ <;> simp at htr
  | dirFailed t rest what =>
    rcases before with _ | ⟨b1, _ | ⟨b2, before⟩⟩ <;> simp at htr
  | unsupported t rest created what hd =>
    rcases before with _ | ⟨b1, _ | ⟨b2, _ | ⟨b3, _ | ⟨b4, before⟩⟩⟩⟩ <;> simp at htr
  | generatorRaised t rest created call what hd =>
    rcases before with _ | ⟨b1, _ | ⟨b2, _ | ⟨b3, _ | ⟨b4, before⟩⟩⟩⟩ <;> simp at htr
  | writeRaised t rest created call vec1 what hd =>
    rcases before with _ | ⟨b1, _ | ⟨b2, _ | ⟨b3, _ | ⟨b4, _ | ⟨b5, _ | ⟨b6, before⟩⟩⟩⟩⟩⟩ <;>
      simp at htr
    obtain ⟨h1, h2, h3, ⟨hid, hvec, hd2, hfmt, hres⟩, hafter⟩ := htr
    subst h1 h2 h3 hid hvec hd2 hfmt hres hafter
    exact ⟨t, [], created, call, by simp, hd, rfl, rfl, rfl, rfl,
      Or.inr ⟨what, rfl, rfl, rfl⟩⟩
  | next t rest created call vec1 results o tr hd hrest ih =>
    rcases before with _ | ⟨b1, _ | ⟨b2, _ | ⟨b3, _ | ⟨b4, before⟩⟩⟩⟩
    · simp at htr
    · simp at htr
    · simp at htr
    · simp at htr
      obtain ⟨h1, h2, h3, ⟨hid, hvec, hd2, hfmt, hres⟩, hafter⟩ := htr
      subst h1 h2 h3 hid hvec hd2 hfmt hres hafter
      refine ⟨t, [], created, call, by simp, hd, rfl, rfl, rfl, rfl, Or.inl ⟨results, rfl, ?_⟩⟩
      rcases hrest.head with hdone | ⟨t2, r, rest2, ht2, hcons⟩
      · exact Or.inl hdone
      · exact Or.inr ⟨t2, r, rest2, by simp [ht2], hcons⟩
    · simp at htr
      obtain ⟨_, _, _, _, htr2⟩ := htr
      obtain ⟨t1, b0, created1, call1, ht1, hd1, hid, hd2, hfmt, hb, hafter⟩ :=
        ih before htr2
      refine ⟨t1, b1 :: b2 :: b3 :: b4 :: b0, created1, call1, by simp [ht1], hd1, hid, hd2,
        hfmt, by simp [hb], ?_⟩
      rcases hafter with ⟨results1, hres, hnext⟩ | hraised
      · refine Or.inl ⟨results1, hres, ?_⟩
        rcases hnext with hdone | ⟨t2, r, rest2, ht2, hcons⟩
        · exact Or.inl hdone
        · exact Or.inr ⟨t2, r, rest2, by simp [ht2], hcons⟩
      · exact Or.inr hraised

/-- Around a generator call in a run of the loop: the creation of the directory of
its table comes right before it, and when it returns, the progress line and the
write of the returned batch come right after it. -/
theorem LoopRun.generate_context {σ : Type} {env : Env σ} {sf : ScaleFactor} {dir : String}
    {ts : List Table} {o : Outcome} {tr : List Event} (h : LoopRun env sf dir ts o tr)
    (before : List Event) (call : GenCall) (res : Result RowVector) (after : List Event)
    (htr : tr = before ++ .generate call res :: after) :
    ∃ t b0 created, t ∈ ts ∧ dispatch env t sf = .value call ∧
      before = b0 ++ [.createDirectories (tableDir env dir t) (.value created)] ∧
      ((∃ vec wres rest, res = .value vec ∧
          after = .cout (generatedLine (env.toTableName t) vec) ::
            .writeTask (taskIdOf env t) vec (tableDir env dir t) .PARQUET wres :: rest) ∨
        (∃ what, res = .raised what ∧
          after = [.cerr (failedLine (env.toTableName t) what)] ∧ o = .returned 1)) := by
  induction h generalizing before with
  | done =>
    rcases before with _ | ⟨b1, _ | ⟨b2, before⟩⟩ <;> simp at htr
  | dirFailed t rest what =>
    rcases before with _ | ⟨b1, _ | ⟨b2, before⟩⟩ <;> simp at htr
  | unsupported t rest created what hd =>
    rcases before with _ | ⟨b1, _ | ⟨b2, _ | ⟨b3, _ | ⟨b4, before⟩⟩⟩⟩ <;> simp at htr
  | generatorRaised t rest created call1 what hd =>
    rcases before with _ | ⟨b1, _ | ⟨b2, _ | ⟨b3, _ | ⟨b4, before⟩⟩⟩⟩ <;> simp at htr
    obtain ⟨h1, ⟨hcall, hres⟩, hafter⟩ := htr
    subst h1 hcall hres hafter
    exact ⟨t, [], created, by simp, hd, rfl, Or.inr ⟨what, rfl, rfl, rfl⟩⟩
  | writeRaised t rest created call1 vec1 what hd =>
    rcases before with _ | ⟨b1, _ | ⟨b2, _ | ⟨b3, _ | ⟨b4, _ | ⟨b5, _ | ⟨b6, before⟩⟩⟩⟩⟩⟩ <;>
      simp at htr
    obtain ⟨h1, ⟨hcall, hres⟩, hafter⟩ := htr
    subst h1 hcall hres hafter
    exact ⟨t, [], created, by simp, hd, rfl, Or.inl ⟨vec1, _, _, rfl, rfl⟩⟩
  | next t rest created call1 vec1 results o tr hd hrest ih =>
    rcases before with _ | ⟨b1, _ | ⟨b2, _ | ⟨b3, _ | ⟨b4, before⟩⟩⟩⟩
    · simp at htr
    · simp at htr
      obtain ⟨h1, ⟨hcall, hres⟩, hafter⟩ := htr
      subst h1 hcall hres hafter
      exact ⟨t, [], created, by simp, hd, rfl, Or.inl ⟨vec1, _, _, rfl, rfl⟩⟩
    · simp at htr
    · simp at htr
    · simp at htr
      obtain ⟨_, _, _, _, htr2⟩ := htr
      obtain ⟨t1, b0, created1, ht1, hd1, hb, hafter⟩ := ih before htr2
      exact ⟨t1, b1 :: b2 :: b3 :: b4 :: b0, created1, by simp [ht1], hd1, by simp [hb], hafter⟩

/-- Around a write task in a run of `main`. -/
theorem main_write_context {σ : Type} (env : Env σ) (sf : ScaleFactor) (outputDir : String)
    (w : σ) (before : List Event) (taskId : String) (vec : RowVector) (d : String)
    (format : FileFormat) (res : Result (List TaskResult)) (after : List Event)
    (htr : (main env sf outputDir w).trace =
      before ++ .writeTask taskId vec d format res :: after) :
    ∃ t b0 created call, t ∈ env.tables ∧ dispatch env t sf = .value call ∧
      taskId = taskIdOf env t ∧ d = tableDir env outputDir t ∧ format = .PARQUET ∧
      before = b0 ++ [.createDirectories (tableDir env outputDir t) (.value created),
        .generate call (.value vec), .cout (generatedLine (env.toTableName t) vec)] ∧
      ((∃ results, res = .value results ∧
          ((after = [.cout "Done.\n"] ∧ (main env sf outputDir w).outcome = .returned 0) ∨
            ∃ t2 r rest, t2 ∈ env.tables ∧
              after = .createDirectories (tableDir env outputDir t2) r :: rest)) ∨
        (∃ what, res = .raised what ∧
          after = [.cerr (failedLine (env.toTableName t) what)] ∧
          (main env sf outputDir w).outcome = .returned 1)) := by
  rcases main_run env sf outputDir w with ⟨_, _, h⟩ | ⟨_, what, _, h⟩ |
    ⟨_, created, tr, hrun, h⟩
  · rw [h] at htr
    rcases before with _ | ⟨b1, _ | ⟨b2, before⟩⟩ <;> simp at htr
  · rw [h] at htr
    rcases before with _ | ⟨b1, _ | ⟨b2, before⟩⟩ <;> simp at htr
  · rw [h] at htr
    rcases before with _ | ⟨b1, before⟩
    · simp at htr
    · simp at htr
      obtain ⟨_, htr2⟩ := htr
      obtain ⟨t, b0, created1, call, ht, hd, hid, hd2, hfmt, hb, hafter⟩ :=
        hrun.write_context before taskId vec d format res after htr2
      exact ⟨t, b1 :: b0, created1, call, ht, hd, hid, hd2, hfmt, by simp [hb], hafter⟩

/-- Around a generator call in a run of `main`. -/
theorem main_generate_context {σ : Type} (env : Env σ) (sf : ScaleFactor) (outputDir : String)
    (w : σ) (before : List Event) (call : GenCall) (res : Result RowVector) (after : List Event)
    (htr : (main env sf outputDir w).trace = before ++ .generate call res :: after) :
    ∃ t b0 created, t ∈ env.tables ∧ dispatch env t sf = .value call ∧
      before = b0 ++ [.createDirectories (tableDir env outputDir t) (.value created)] ∧
      ((∃ vec wres rest, res = .value vec ∧
          after = .cout (generatedLine (env.toTableName t) vec) ::
            .writeTask (taskIdOf env t) vec (tableDir env outputDir t) .PARQUET wres :: rest) ∨
        (∃ what, res = .raised what ∧
          after = [.cerr (failedLine (env.toTableName t) what)] ∧
          (main env sf outputDir w).outcome = .returned 1)) := by
  rcases main_run env sf outputDir w with ⟨_, _, h⟩ | ⟨_, what, _, h⟩ |
    ⟨_, created, tr, hrun, h⟩
  · rw [h] at htr
    rcases before with _ | ⟨b1, _ | ⟨b2, before⟩⟩ <;> simp at htr
  · rw [h] at htr
    rcases before with _ | ⟨b1, _ | ⟨b2, before⟩⟩ <;> simp at htr
  · rw [h] at htr
    rcases before with _ | ⟨b1, before⟩
    · simp at htr
    · simp at htr
      obtain ⟨_, htr2⟩ := htr
      obtain ⟨t, b0, created1, ht, hd, hb, hafter⟩ :=
        hrun.generate_context before call res after htr2
      exact ⟨t, b1 :: b0, created1, ht, hd, by simp [hb], hafter⟩

/-- C6: wherever a generator call or a write task stands in the trace of `main`, the
creation of the subdirectory `tableDir t` of its table comes right before the
generator call, and the batch the generator returns is the one handed to the write
task that follows, which writes into that same subdirectory in the Parquet
format. -/
theorem main_own_directory_first {σ : Type} (env : Env σ) (sf : ScaleFactor)
    (outputDir : String) (w : σ) (before : List Event) (e : Event) (after : List Event)
    (htr : (main env sf outputDir w).trace = before ++ e :: after) :
    OwnDirectoryFirst env sf outputDir before e after := by
  constructor
  · intro call res he
    subst he
    obtain ⟨t, b0, created, ht, hd, hb, hafter⟩ :=
      main_generate_context env sf outputDir w before call res after htr
    refine ⟨t, b0, created, ht, hd, hb, fun vec hres => ?_⟩
    rcases hafter with ⟨vec1, wres, rest, hres1, ha⟩ | ⟨what, hres1, _⟩
    · rw [hres1] at hres
      cases hres
      exact ⟨wres, rest, ha⟩
    · rw [hres1] at hres
      cases hres
  · intro taskId vec d format res he
    subst he
    obtain ⟨t, b0, created, call, ht, hd, hid, hd2, hfmt, hb, _⟩ :=
      main_write_context env sf outputDir w before taskId vec d format res after htr
    exact ⟨t, b0, created, call, ht, hd, hid, hd2, hfmt, by rw [hd2]; exact hb⟩

/-- C10, as the code has it: the progress line of a table is printed once the table
is generated, before its write.  In every run where the write task of a table
raises, the progress line of that table, with the row count of the generated batch,
is the event right before the write task; the error line naming the table and the
cause is the only event after it, and `main` returns 1. -/
theorem main_progress_line_precedes_write {σ : Type} (env : Env σ) (sf : ScaleFactor)
    (outputDir : String) (w : σ) (before : List Event) (taskId : String) (vec : RowVector)
    (d : String) (format : FileFormat) (what : String) (after : List Event)
    (htr : (main env sf outputDir w).trace =
      before ++ .writeTask taskId vec d format (.raised what) :: after) :
    ∃ t b0, t ∈ env.tables ∧ taskId = taskIdOf env t ∧
      before = b0 ++ [.cout (generatedLine (env.toTableName t) vec)] ∧
      after = [.cerr (failedLine (env.toTableName t) what)] ∧
      (main env sf outputDir w).outcome = .returned 1 := by
  obtain ⟨t, b0, created, call, ht, _, hid, _, _, hb, hafter⟩ :=
    main_write_context env sf outputDir w before taskId vec d format (.raised what) after htr
  rcases hafter with ⟨results1, hres, _⟩ | ⟨what1, hres, ha, ho⟩
  · cases hres
  · cases hres
    exact ⟨t, b0 ++ [.createDirectories (tableDir env outputDir t) (.value created),
      .generate call (.value vec)], ht, hid, by simp [hb], ha, ho⟩

/-! ## When the directories are created -/

/-- The directories created when a generator is called, in a run of the loop. -/
theorem LoopRun.dirs_at_generate {σ : Type} {env : Env σ} {sf : ScaleFactor} {dir : String}
    {ts : List Table} {o : Outcome} {tr : List Event} (h : LoopRun env sf dir ts o tr)
    (before : List Event) (call : GenCall) (res : Result RowVector) (after : List Event)
    (htr : tr = before ++ .generate call res :: after) :
    dirsCreated before =
      (ts.take ((generatorCalls before).length + 1)).map (tableDir env dir) ∧
    (ts.map (fun t => dispatch env t sf))[(generatorCalls before).length]? =
      some (.value call) := by
  induction h generalizing before with
  | done =>
    rcases before with _ | ⟨b1, _ | ⟨b2, before⟩⟩ <;> simp at htr
  | dirFailed t rest what =>
    rcases before with _ | ⟨b1, _ | ⟨b2, before⟩⟩ <;> simp at htr
  | unsupported t rest created what hd =>
    rcases before with _ | ⟨b1, _ | ⟨b2, _ | ⟨b3, _ | ⟨b4, before⟩⟩⟩⟩ <;> simp at htr
  | generatorRaised t rest created call1 what hd =>
    rcases before with _ | ⟨b1, _ | ⟨b2, _ | ⟨b3, _ | ⟨b4, before⟩⟩⟩⟩ <;> simp at htr
    obtain ⟨h1, ⟨hcall, _⟩, _⟩ := htr
    subst h1 hcall
    simp [dirsCreated, generatorCalls, Event.createdDir, Event.generatorCall, hd]
  | writeRaised t rest created call1 vec1 what hd =>
    rcases before with _ | ⟨b1, _ | ⟨b2, _ | ⟨b3, _ | ⟨b4, _ | ⟨b5, _ | ⟨b6, before⟩⟩⟩⟩⟩⟩ <;>
      simp at htr
    obtain ⟨h1, ⟨hcall, _⟩, _⟩ := htr
    subst h1 hcall
    simp [dirsCreated, generatorCalls, Event.createdDir, Event.generatorCall, hd]
  | next t rest created call1 vec1 results o tr hd hrest ih =>
    rcases before with _ | ⟨b1, _ | ⟨b2, _ | ⟨b3, _ | ⟨b4, before⟩⟩⟩⟩
    · simp at htr
    · simp at htr
      obtain ⟨h1, ⟨hcall, _⟩, _⟩ := htr
      subst h1 hcall
      simp [dirsCreated, generatorCalls, Event.createdDir, Event.generatorCall, hd]
    · simp at htr
    · simp at htr
    · simp at htr
      obtain ⟨h1, h2, h3, h4, htr2⟩ := htr
      subst h1 h2 h3 h4
      obtain ⟨ih1, ih2⟩ := ih before htr2
      simp only [dirsCreated, generatorCalls] at ih1 ih2
      simp [dirsCreated, generatorCalls, Event.createdDir, Event.generatorCall, ih1, ih2]

/-- C9, as the code has it: the subdirectory of a table is created in the loop
iteration of that table, right before its own generation, not before the first
generation of the run.  When the generator of the k-th table of `tables` is called,
the directories created so far are the root and the subdirectories of the first k
tables, in order: that of the table being generated is among them, those of the
later tables are not yet created. -/
theorem main_directories_at_generate {σ : Type} (env : Env σ) (sf : ScaleFactor)
    (outputDir : String) (w : σ) (before : List Event) (call : GenCall)
    (res : Result RowVector) (after : List Event)
    (htr : (main env sf outputDir w).trace = before ++ .generate call res :: after) :
    dirsCreated before =
      outputDir ::
        (env.tables.take ((generatorCalls before).length + 1)).map (tableDir env outputDir) ∧
    (env.tables.map (fun t => dispatch env t sf))[(generatorCalls before).length]? =
      some (.value call) := by
  rcases main_run env sf outputDir w with ⟨_, _, h⟩ | ⟨_, what, _, h⟩ |
    ⟨_, created, tr, hrun, h⟩
  · rw [h] at htr
    rcases before with _ | ⟨b1, _ | ⟨b2, before⟩⟩ <;> simp at htr
  · rw [h] at htr
    rcases before with _ | ⟨b1, _ | ⟨b2, before⟩⟩ <;> simp at htr
  · rw [h] at htr
    rcases before with _ | ⟨b1, before⟩
    · simp at htr
    · simp at htr
      obtain ⟨h1, htr2⟩ := htr
      subst h1
      obtain ⟨h1, h2⟩ := hrun.dirs_at_generate before call res after htr2
      simp only [dirsCreated, generatorCalls] at h1 h2
      simp [dirsCreated, generatorCalls, Event.createdDir, Event.generatorCall, h1, h2]

/-! ## The runs of the concrete environment -/

/-- C4 at a failing input: when `create_directories` raises, for the root directory
or for the subdirectory of a table, the exception leaves `main`: the process ends
in `std::terminate`, `main` returns no exit status and prints no error line. -/
theorem main_directory_failure_terminates :
    (main noRootEnv 1 "/proc/out" 0).outcome =
      .terminated "filesystem error: cannot create directories: /proc/out" ∧
    (main noRootEnv 1 "/proc/out" 0).trace =
      [.createDirectories "/proc/out"
        (.raised "filesystem error: cannot create directories: /proc/out")] ∧
    (main noSubdirEnv 1 "out" 0).outcome =
      .terminated "filesystem error: cannot create directories: out/supplier" ∧
    (main noSubdirEnv 1 "out" 0).trace.drop 5 =
      [.createDirectories "out/supplier"
        (.raised "filesystem error: cannot create directories: out/supplier")] ∧
    (main noRootEnv 1 "" 0).outcome = .returned 1 := by
  decide

/-- C9 fails as stated: in the run where everything succeeds, only the root and
`out/part` are created before the first generator call; `out/supplier` is created
after `part` is generated and written, and the run does not abort. -/
theorem subdirectories_are_not_all_created_first :
    (main fullEnv 1 "out" 0).trace.take 6 =
      [.createDirectories "out" (.value true),
       .createDirectories "out/part" (.value true),
       .generate ⟨.genTpchPart, 20, 0, 1⟩ (.value ⟨20, 0⟩),
       .cout "Generated part: 20 rows\n",
       .writeTask "tpch_write_part" ⟨20, 0⟩ "out/part" .PARQUET (.value [⟨20⟩]),
       .createDirectories "out/supplier" (.value true)] ∧
    tableDir fullEnv "out" .TBL_SUPPLIER = "out/supplier" ∧
    (generatorCalls (main fullEnv 1 "out" 0).trace).length = 8 ∧
    (main fullEnv 1 "out" 0).outcome = .returned 0 := by
  decide

/-- C10 fails as stated: the write of `partsupp` raises, and standard output carries
the progress line of `partsupp`, printed before the write. -/
theorem progress_line_printed_for_failed_write :
    (main diskFullEnv 1 "out" 0).trace.drop 9 =
      [.createDirectories "out/partsupp" (.value true),
       .generate ⟨.genTpchPartSupp, 80, 0, 1⟩ (.value ⟨80, 2⟩),
       .cout "Generated partsupp: 80 rows\n",
       .writeTask "tpch_write_partsupp" ⟨80, 2⟩ "out/partsupp" .PARQUET
         (.raised "No space left on device"),
       .cerr "Failed to generate/write table \x27partsupp\x27: No space left on device\n"] ∧
    (main diskFullEnv 1 "out" 0).outcome = .returned 1 := by
  decide

/-- The run in which everything succeeds: no directory creation raises, and the
output directory is given. -/
theorem main_exit_status_witness :
    "out" ≠ "" ∧
    (∀ e ∈ (main fullEnv 1 "out" 0).trace, e.dirFailed = false) ∧
    (((main fullEnv 1 "out" 0).outcome = .returned 0 ↔
        AllTablesCompleted fullEnv 1 "out" (main fullEnv 1 "out" 0).trace) ∧
      (¬ AllTablesCompleted fullEnv 1 "out" (main fullEnv 1 "out" 0).trace →
        (main fullEnv 1 "out" 0).outcome = .returned 1)) :=
  ⟨by decide, by decide, main_exit_status fullEnv 1 "out" 0 (by decide) (by decide)⟩

/-- The run whose third write task raises: the tables before `partsupp` are written,
nothing happens for those after it. -/
theorem main_stops_at_first_failure_witness :
    (main diskFullEnv 1 "out" 0).trace.any Event.raisedInTry = true ∧
    ((main diskFullEnv 1 "out" 0).outcome = .returned 1 ∧
      ∃ pre t post, diskFullEnv.tables = pre ++ t :: post ∧
        dirsCreated (main diskFullEnv 1 "out" 0).trace =
          "out" :: (pre ++ [t]).map (tableDir diskFullEnv "out") ∧
        (generatorCalls (main diskFullEnv 1 "out" 0).trace).map Result.value <+:
          (pre ++ [t]).map (fun t => dispatch diskFullEnv t 1) ∧
        writeDirs (main diskFullEnv 1 "out" 0).trace <+:
          (pre ++ [t]).map (tableDir diskFullEnv "out") ∧
        writesCompleted (main diskFullEnv 1 "out" 0).trace =
          pre.map (tableDir diskFullEnv "out")) :=
  ⟨by decide, main_stops_at_first_failure diskFullEnv 1 "out" 0 (by decide)⟩

/-- The run in which everything succeeds enters the `try` block of all eight tables
and makes the eight selected calls; `genTpchLineItem` is called with the 150 rows of
`orders`, not with the 600 of `getRowCount(TBL_LINEITEM, sf)`. -/
theorem dispatch_calls_witness :
    generatorCalls (main fullEnv 1 "out" 0).trace =
      selectedCalls fullEnv 1 (tablesEntered fullEnv (main fullEnv 1 "out" 0).trace) ∧
    tablesEntered fullEnv (main fullEnv 1 "out" 0).trace = allTables ∧
    generatorCalls (main fullEnv 1 "out" 0).trace =
      [⟨.genTpchPart, 20, 0, 1⟩, ⟨.genTpchSupplier, 10, 0, 1⟩, ⟨.genTpchPartSupp, 80, 0, 1⟩,
       ⟨.genTpchCustomer, 15, 0, 1⟩, ⟨.genTpchOrders, 150, 0, 1⟩,
       ⟨.genTpchLineItem, 150, 0, 1⟩, ⟨.genTpchNation, 25, 0, 1⟩,
       ⟨.genTpchRegion, 5, 0, 1⟩] ∧
    fullEnv.getRowCount .TBL_ORDERS 1 = 150 ∧
    fullEnv.getRowCount .TBL_LINEITEM 1 = 600 :=
  ⟨(dispatch_calls fullEnv 1 "out" 0).2.2.2.2.2.2.2.2.2, by decide, by decide, by decide,
    by decide⟩

/-- The generator call of `part` in the run in which everything succeeds. -/
theorem main_own_directory_first_witness :
    (main fullEnv 1 "out" 0).trace =
      [.createDirectories "out" (.value true), .createDirectories "out/part" (.value true)] ++
        .generate ⟨.genTpchPart, 20, 0, 1⟩ (.value ⟨20, 0⟩) ::
          (main fullEnv 1 "out" 0).trace.drop 3 ∧
    OwnDirectoryFirst fullEnv 1 "out"
      [.createDirectories "out" (.value true), .createDirectories "out/part" (.value true)]
      (.generate ⟨.genTpchPart, 20, 0, 1⟩ (.value ⟨20, 0⟩))
      ((main fullEnv 1 "out" 0).trace.drop 3) :=
  ⟨by decide, main_own_directory_first fullEnv 1 "out" 0 _ _ _ (by decide)⟩

/-- The run in which everything succeeds: sixteen invocations, generator and write
task of each of the eight tables in turn; `orders` is generated (ninth invocation)
and written before `lineitem` is generated (eleventh). -/
theorem main_invocation_order_witness :
    "out" ≠ "" ∧
    (main fullEnv 1 "out" 0).trace.any (fun e => e.dirFailed || e.raisedInTry) = false ∧
    ((main fullEnv 1 "out" 0).outcome = .returned 0 ∧
      invocations (main fullEnv 1 "out" 0).trace =
        expectedInvocations fullEnv 1 "out" fullEnv.tables) ∧
    (invocations (main fullEnv 1 "out" 0).trace).length = 16 ∧
    (invocations (main fullEnv 1 "out" 0).trace)[8]? =
      some (.generate (.value ⟨.genTpchOrders, 150, 0, 1⟩)) ∧
    (invocations (main fullEnv 1 "out" 0).trace)[10]? =
      some (.generate (.value ⟨.genTpchLineItem, 150, 0, 1⟩)) :=
  ⟨by decide, by decide, main_invocation_order fullEnv 1 "out" 0 (by decide) (by decide),
    by decide, by decide, by decide⟩

/-- The generator call of `supplier`, the second table, in the run in which
everything succeeds. -/
theorem main_directories_at_generate_witness :
    (main fullEnv 1 "out" 0).trace =
      (main fullEnv 1 "out" 0).trace.take 6 ++
        .generate ⟨.genTpchSupplier, 10, 0, 1⟩ (.value ⟨10, 1⟩) ::
          (main fullEnv 1 "out" 0).trace.drop 7 ∧
    (dirsCreated ((main fullEnv 1 "out" 0).trace.take 6) =
        "out" ::
          (fullEnv.tables.take
            ((generatorCalls ((main fullEnv 1 "out" 0).trace.take 6)).length + 1)).map
            (tableDir fullEnv "out") ∧
      (fullEnv.tables.map (fun t => dispatch fullEnv t 1))[
          (generatorCalls ((main fullEnv 1 "out" 0).trace.take 6)).length]? =
        some (.value ⟨.genTpchSupplier, 10, 0, 1⟩)) :=
  ⟨by decide, main_directories_at_generate fullEnv 1 "out" 0
    ((main fullEnv 1 "out" 0).trace.take 6) ⟨.genTpchSupplier, 10, 0, 1⟩ (.value ⟨10, 1⟩)
    ((main fullEnv 1 "out" 0).trace.drop 7) (by decide)⟩

/-- The write of `partsupp` that raises. -/
theorem main_progress_line_precedes_write_witness :
    (main diskFullEnv 1 "out" 0).trace =
      (main diskFullEnv 1 "out" 0).trace.take 12 ++
        .writeTask "tpch_write_partsupp" ⟨80, 2⟩ "out/partsupp" .PARQUET
          (.raised "No space left on device") ::
          (main diskFullEnv 1 "out" 0).trace.drop 13 ∧
    ∃ t b0, t ∈ diskFullEnv.tables ∧ "tpch_write_partsupp" = taskIdOf diskFullEnv t ∧
      (main diskFullEnv 1 "out" 0).trace.take 12 =
        b0 ++ [.cout (generatedLine (diskFullEnv.toTableName t) ⟨80, 2⟩)] ∧
      (main diskFullEnv 1 "out" 0).trace.drop 13 =
        [.cerr (failedLine (diskFullEnv.toTableName t) "No space left on device")] ∧
      (main diskFullEnv 1 "out" 0).outcome = .returned 1 :=
  ⟨by decide, main_progress_line_precedes_write diskFullEnv 1 "out" 0
    ((main diskFullEnv 1 "out" 0).trace.take 12) "tpch_write_partsupp" ⟨80, 2⟩ "out/partsupp"
    .PARQUET "No space left on device" ((main diskFullEnv 1 "out" 0).trace.drop 13)
    (by decide)⟩

end Tpch
